import Mathlib

/-!
Shallow embedding of the repository's analysis core: the Critical Slowing
Down statistical engine (`lib/statistical-engine.js`) and the Log-Periodic
Power Law bubble model (`lib/lppl-model.js`, together with the duplicate
inline implementation found in the combined API handler), followed by
theorems settling the specification claims against these definitions.

Modelling conventions: JavaScript numbers are real numbers; JS arrays are
lists; the `null` entries of the rolling indicator series are `Option.none`.
Window sizes are integers (JS numbers used as counts), so that zero and
negative window sizes can be expressed.
-/

namespace StatEngine

/-- `StatisticalEngine.gaussianKernel(x, bandwidth)`:
`exp(-0.5 * (x/bandwidth)^2) / (bandwidth * sqrt(2*PI))`. -/
noncomputable def gaussianKernel (x bandwidth : ℝ) : ℝ :=
  Real.exp (-0.5 * (x / bandwidth) ^ 2) / (bandwidth * Real.sqrt (2 * Real.pi))

/-- The inner loop of `StatisticalEngine.detrend`: Nadaraya-Watson weighted
average over all points, `trend[i] = valueSum / weightSum`. -/
noncomputable def trendAt (data : List ℝ) (bandwidth : ℝ) (i : ℕ) : ℝ :=
  (∑ j ∈ Finset.range data.length, gaussianKernel ((i : ℝ) - (j : ℝ)) bandwidth * data.getD j 0)
    / (∑ j ∈ Finset.range data.length, gaussianKernel ((i : ℝ) - (j : ℝ)) bandwidth)

/-- Result record of `detrend`: `{ trend, residuals }`. -/
structure DetrendResult where
  trend : List ℝ
  residuals : List ℝ

/-- `StatisticalEngine.detrend(data, bandwidth)`: full-length trend via the
Gaussian-kernel smoother and `residuals[i] = data[i] - trend[i]`. -/
noncomputable def detrend (data : List ℝ) (bandwidth : ℝ) : DetrendResult :=
  { trend := (List.range data.length).map (trendAt data bandwidth)
    residuals := (List.range data.length).map (fun i => data.getD i 0 - trendAt data bandwidth i) }

/-- The window `[start, start + windowSize)` of a residual list, as read by the
inner loops of `rollingAR1` (`residuals[i - windowSize + j]`, resp. the lagged
copy) and by `rollingVariance` (`residuals.slice(i - windowSize, i)`). -/
noncomputable def windowFrom (res : List ℝ) (ws : ℤ) (start : ℤ) : List ℝ :=
  (List.range ws.toNat).map (fun (j : ℕ) => res.getD (start + (j : ℤ)).toNat 0)

/-- `varCurrent` accumulated by `rollingAR1` at index `i`. -/
noncomputable def ar1VarCur (res : List ℝ) (ws : ℤ) (i : ℕ) : ℝ :=
  let cur := windowFrom res ws ((i : ℤ) - ws)
  let meanCurrent := cur.sum / (ws : ℝ)
  ∑ j ∈ Finset.range ws.toNat, (cur.getD j 0 - meanCurrent) ^ 2

/-- `varLag` accumulated by `rollingAR1` at index `i`. -/
noncomputable def ar1VarLag (res : List ℝ) (ws : ℤ) (i : ℕ) : ℝ :=
  let lag := windowFrom res ws ((i : ℤ) - ws - 1)
  let meanLag := lag.sum / (ws : ℝ)
  ∑ j ∈ Finset.range ws.toNat, (lag.getD j 0 - meanLag) ^ 2

/-- `cov` accumulated by `rollingAR1` at index `i`. -/
noncomputable def ar1Cov (res : List ℝ) (ws : ℤ) (i : ℕ) : ℝ :=
  let cur := windowFrom res ws ((i : ℤ) - ws)
  let lag := windowFrom res ws ((i : ℤ) - ws - 1)
  let meanCurrent := cur.sum / (ws : ℝ)
  let meanLag := lag.sum / (ws : ℝ)
  ∑ j ∈ Finset.range ws.toNat, (cur.getD j 0 - meanCurrent) * (lag.getD j 0 - meanLag)

/-- Body of `rollingAR1` past the null guard: guarded Pearson correlation of
the two aligned windows, clamped into `[-1, 1]` by
`Math.max(-1, Math.min(1, correlation))`. -/
noncomputable def ar1At (res : List ℝ) (ws : ℤ) (i : ℕ) : ℝ :=
  let correlation :=
    if 0 < ar1VarCur res ws i ∧ 0 < ar1VarLag res ws i then
      ar1Cov res ws i / Real.sqrt (ar1VarCur res ws i * ar1VarLag res ws i)
    else 0
  max (-1) (min 1 correlation)

/-- `StatisticalEngine.rollingAR1(residuals, windowSize)`: `null` while
`i < windowSize + 1`, otherwise the clamped window correlation. -/
noncomputable def rollingAR1 (res : List ℝ) (ws : ℤ) : List (Option ℝ) :=
  (List.range res.length).map (fun (i : ℕ) => if (i : ℤ) < ws + 1 then none else some (ar1At res ws i))

/-- Body of `rollingVariance` past the null guard: mean over `windowSize` and
sum of squared deviations over the trailing window, divided by
`windowSize - 1`. -/
noncomputable def varAt (res : List ℝ) (ws : ℤ) (i : ℕ) : ℝ :=
  let window := windowFrom res ws ((i : ℤ) - ws)
  let mean := window.sum / (ws : ℝ)
  let sumSq := (window.map (fun v => (v - mean) ^ 2)).sum
  sumSq / ((ws : ℝ) - 1)

/-- `StatisticalEngine.rollingVariance(residuals, windowSize)`: `null` while
`i < windowSize`, otherwise the trailing-window sample variance. -/
noncomputable def rollingVariance (res : List ℝ) (ws : ℤ) : List (Option ℝ) :=
  (List.range res.length).map (fun (i : ℕ) => if (i : ℤ) < ws then none else some (varAt res ws i))

/-- The series `kendallTau` actually ranks: defined (non-null) AR(1) values
first (`filter(v => v !== null)`), then the trailing `lookback` of them
(`slice(-lookback)`; JS `slice(-0)` is `slice(0)`, i.e. the whole array). -/
def kendallRecent (ar1Series : List (Option ℝ)) (lookback : ℕ) : List ℝ :=
  let validAr1 := ar1Series.filterMap id
  if lookback = 0 then validAr1 else validAr1.drop (validAr1.length - lookback)

/-- `StatisticalEngine.kendallTau(ar1Series, lookback)`: 0 when fewer than 10
defined points remain, otherwise `(concordant - discordant) / pairs` over all
index pairs `i < j` of the recent window, concordance decided by the sign of
`(j - i) * (recent[j] - recent[i])`. -/
noncomputable def kendallTau (ar1Series : List (Option ℝ)) (lookback : ℕ) : ℝ :=
  let recent := kendallRecent ar1Series lookback
  if recent.length < 10 then 0
  else
    let k := recent.length
    let concordant : ℝ := ∑ i ∈ Finset.range k, ∑ j ∈ Finset.Ico (i + 1) k,
      if 0 < ((j : ℝ) - (i : ℝ)) * (recent.getD j 0 - recent.getD i 0) then 1 else 0
    let discordant : ℝ := ∑ i ∈ Finset.range k, ∑ j ∈ Finset.Ico (i + 1) k,
      if ((j : ℝ) - (i : ℝ)) * (recent.getD j 0 - recent.getD i 0) < 0 then 1 else 0
    let pairs : ℝ := (k : ℝ) * ((k : ℝ) - 1) / 2
    if 0 < pairs then (concordant - discordant) / pairs else 0

/-- The configuration record consumed by `analyzeCSD`, with its defaults. -/
structure CSDConfig where
  detrendBandwidth : ℝ := 50
  csdWindow : ℤ := 250
  tauLookback : ℕ := 100

/-- The composite result of `analyzeCSD`. -/
structure CSDResult where
  trend : List ℝ
  residuals : List ℝ
  ar1Series : List (Option ℝ)
  varianceSeries : List (Option ℝ)
  currentAR1 : ℝ
  kendallTau : ℝ
  status : String
  currentVariance : ℝ

/-- `analyzeCSD(prices, config)`: detrend, rolling AR(1), rolling variance,
Kendall tau, latest defined AR(1)/variance (0 when none), and the fixed
status thresholds 0.8 / 0.7 / 0.6. -/
noncomputable def analyzeCSD (prices : List ℝ) (config : CSDConfig) : CSDResult :=
  let d := detrend prices config.detrendBandwidth
  let ar1Series := rollingAR1 d.residuals config.csdWindow
  let varianceSeries := rollingVariance d.residuals config.csdWindow
  let tau := kendallTau ar1Series config.tauLookback
  let validAr1 := ar1Series.filterMap id
  let currentAR1 := (validAr1.getLast?).getD 0
  let status : String :=
    if 0.8 < currentAR1 then "CRITICAL"
    else if 0.7 < currentAR1 then "ELEVATED"
    else if 0.6 < currentAR1 then "RISING"
    else "NORMAL"
  { trend := d.trend
    residuals := d.residuals
    ar1Series := ar1Series
    varianceSeries := varianceSeries
    currentAR1 := currentAR1
    kendallTau := tau
    status := status
    currentVariance := ((varianceSeries.filterMap id).getLast?).getD 0 }

end StatEngine

namespace LPPL

/-- `LPPLModel.lpplFunction(t, tc, A, B, C, m, omega, phi)` (identical in both
source copies): `A` once `dt <= 0`, otherwise
`A + B*dt^m + C*dt^m*cos(omega*ln(dt) + phi)`. -/
noncomputable def lpplFunction (t tc A B C m omega phi : ℝ) : ℝ :=
  let dt := tc - t
  if dt ≤ 0 then A
  else A + B * dt ^ m + C * dt ^ m * Real.cos (omega * Real.log dt + phi)

/-- One row `[1, dt^m, dt^m * cos(omega*ln(dt) + phi)]` of the design matrix
built for a grid candidate, at observation index `i`. -/
noncomputable def basis (tc m omega phi : ℝ) (i : ℕ) : Fin 3 → ℝ :=
  fun k =>
    match k with
    | 0 => 1
    | 1 => (tc - (i : ℝ)) ^ m
    | 2 => (tc - (i : ℝ)) ^ m * Real.cos (omega * Real.log (tc - (i : ℝ)) + phi)

/-- The accumulated normal matrix `X'X` (`XtX[i][j] += X[k][i] * X[k][j]`). -/
noncomputable def xtx (n : ℕ) (tc m omega phi : ℝ) : Fin 3 → Fin 3 → ℝ :=
  fun a b => ∑ i ∈ Finset.range n, basis tc m omega phi i a * basis tc m omega phi i b

/-- The accumulated right-hand side `X'y` (`Xty[i] += X[k][i] * y[k]`). -/
noncomputable def xty (y : List ℝ) (tc m omega phi : ℝ) : Fin 3 → ℝ :=
  fun a => ∑ i ∈ Finset.range y.length, basis tc m omega phi i a * y.getD i 0

/-- The explicit 3x3 determinant computed by `solve3x3` / `solveOLS`. -/
noncomputable def det3 (a : Fin 3 → Fin 3 → ℝ) : ℝ :=
  a 0 0 * (a 1 1 * a 2 2 - a 1 2 * a 2 1)
    - a 0 1 * (a 1 0 * a 2 2 - a 1 2 * a 2 0)
    + a 0 2 * (a 1 0 * a 2 1 - a 1 1 * a 2 0)

/-- `LPPLModel.solve3x3(A, b)` (= the solving half of the inline `solveOLS`):
`null` when `|det| < 1e-10`, otherwise the explicit adjugate-times-`b`
solution scaled by `1/det`. -/
noncomputable def solve3x3 (a : Fin 3 → Fin 3 → ℝ) (b : Fin 3 → ℝ) : Option (ℝ × ℝ × ℝ) :=
  if |det3 a| < 1e-10 then none
  else
    let invDet := 1 / det3 a
    some
      ( (a 1 1 * a 2 2 - a 1 2 * a 2 1) * invDet * b 0
          + (a 0 2 * a 2 1 - a 0 1 * a 2 2) * invDet * b 1
          + (a 0 1 * a 1 2 - a 0 2 * a 1 1) * invDet * b 2,
        (a 1 2 * a 2 0 - a 1 0 * a 2 2) * invDet * b 0
          + (a 0 0 * a 2 2 - a 0 2 * a 2 0) * invDet * b 1
          + (a 0 2 * a 1 0 - a 0 0 * a 1 2) * invDet * b 2,
        (a 1 0 * a 2 1 - a 1 1 * a 2 0) * invDet * b 0
          + (a 0 1 * a 2 0 - a 0 0 * a 2 1) * invDet * b 1
          + (a 0 0 * a 1 1 - a 0 1 * a 1 0) * invDet * b 2 )

/-- A fitted parameter tuple `{tc, A, B, C, m, omega, phi, r2}`. -/
structure LPPLFit where
  tc : ℝ
  A : ℝ
  B : ℝ
  C : ℝ
  m : ℝ
  omega : ℝ
  phi : ℝ
  r2 : ℝ

/-- The R-squared computed for a candidate: `1 - ssRes/ssTot` against the
log-price series, or 0 when `ssTot` is not positive. -/
noncomputable def r2Of (y : List ℝ) (tc A B C m omega phi : ℝ) : ℝ :=
  let n := y.length
  let ssRes := ∑ i ∈ Finset.range n, (y.getD i 0 - lpplFunction (i : ℝ) tc A B C m omega phi) ^ 2
  let meanY := y.sum / (n : ℝ)
  let ssTot := ∑ i ∈ Finset.range n, (y.getD i 0 - meanY) ^ 2
  if 0 < ssTot then 1 - ssRes / ssTot else 0

/-- One grid-candidate evaluation of `lib/lppl-model.js`'s `optimize`: the
`dt <= 0` validity scan, the OLS solve, and the four rejection tests
(`B >= 0`, `|C| > |B|`, `m` outside `[0.1, 0.9]`, `omega` outside `[5, 15]`),
yielding the fitted tuple with its R-squared. -/
noncomputable def evalCandidate (y : List ℝ) (tc m omega phi : ℝ) : Option LPPLFit :=
  let n := y.length
  if ∀ i ∈ Finset.range n, 0 < tc - (i : ℝ) then
    match solve3x3 (xtx n tc m omega phi) (xty y tc m omega phi) with
    | none => none
    | some (A, B, C) =>
      if 0 ≤ B then none
      else if |B| < |C| then none
      else if m < 0.1 ∨ 0.9 < m then none
      else if omega < 5 ∨ 15 < omega then none
      else some ⟨tc, A, B, C, m, omega, phi, r2Of y tc A B C m omega phi⟩
  else none

open Classical in
/-- The best-so-far accumulator step: a candidate replaces the current best
exactly when it is accepted and `r2 > bestR2 && r2 > 0.75`
(`bestR2 = -Infinity` while no candidate has been kept). -/
noncomputable def gridStep (eval : ℝ → ℝ → ℝ → ℝ → Option LPPLFit)
    (best : Option LPPLFit) (c : ℝ × ℝ × ℝ × ℝ) : Option LPPLFit :=
  match eval c.1 c.2.1 c.2.2.1 c.2.2.2 with
  | none => best
  | some f =>
    if (match best with | none => True | some g => g.r2 < f.r2) ∧ 0.75 < f.r2 then some f
    else best

/-- `lib/lppl-model.js` tc grid: `for (tc = n + 5; tc <= n + 200; tc += 10)`,
i.e. the 20 values `n + 5, n + 15, ..., n + 195`. -/
def tcCandidates (n : ℕ) : List ℕ :=
  (List.range 20).map (fun k => n + 5 + 10 * k)

/-- `lib/lppl-model.js` `mRange`. -/
noncomputable def mGrid : List ℝ := [0.15, 0.2, 0.25, 0.33, 0.4, 0.5, 0.6, 0.7, 0.8]

/-- `lib/lppl-model.js` `omegaRange`. -/
noncomputable def omegaGrid : List ℝ := [5, 6, 7, 8, 9, 10, 11, 12, 13]

/-- `lib/lppl-model.js` `phiRange`: eighth-turn phases `0, pi/4, ..., 7*pi/4`. -/
noncomputable def phiGrid : List ℝ :=
  [0, Real.pi / 4, Real.pi / 2, 3 * Real.pi / 4, Real.pi,
   5 * Real.pi / 4, 3 * Real.pi / 2, 7 * Real.pi / 4]

/-- The nested loop order of `lib/lppl-model.js`'s grid search:
`tc` outermost, then `m`, `omega`, `phi`. -/
noncomputable def candidates (n : ℕ) : List (ℝ × ℝ × ℝ × ℝ) :=
  (tcCandidates n).flatMap fun (tc : ℕ) =>
    mGrid.flatMap fun m =>
      omegaGrid.flatMap fun omega =>
        phiGrid.map fun phi => ((tc : ℝ), m, omega, phi)

/-- The whole grid search of `lib/lppl-model.js`'s `optimize` over the
log-price series `y`: fold of the best-so-far step over all candidates. -/
noncomputable def gridBest (y : List ℝ) : Option LPPLFit :=
  (candidates y.length).foldl (gridStep (evalCandidate y)) none

/-- The result object of `optimize`: `isBubble`, `confidence`, `r2`, the
predicted `tcDays` (absent in the sentinel returns), and the spread fitted
parameters (absent in the sentinel returns). -/
structure LPPLResult where
  isBubble : Bool
  confidence : ℝ
  r2 : ℝ
  tcDays : Option ℤ
  fit : Option LPPLFit

/-- JavaScript `Math.round`: round half up, `floor(x + 1/2)`. -/
noncomputable def jsRound (x : ℝ) : ℤ := ⌊x + 1 / 2⌋

/-- The common tail of both `optimize` implementations: the
`!bestFit || bestFit.r2 < 0.75` sentinel (with `r2: bestFit?.r2 || 0`)
and otherwise `confidence = min(1, max(0, (r2 - 0.75)/0.2))`,
`tcDays = round(tc - n + 1)`,
`isBubble = confidence > 0.3 && tcDays > 5 && tcDays < 200`. -/
noncomputable def finalize (best : Option LPPLFit) (n : ℕ) : LPPLResult :=
  match best with
  | none => ⟨false, 0, 0, none, none⟩
  | some f =>
    if f.r2 < 0.75 then ⟨false, 0, f.r2, none, none⟩
    else
      let confidence := min 1 (max 0 ((f.r2 - 0.75) / 0.2))
      let tcDays := jsRound (f.tc - (n : ℝ) + 1)
      ⟨if 0.3 < confidence ∧ 5 < tcDays ∧ tcDays < 200 then true else false,
        confidence, f.r2, some tcDays, some f⟩

/-- `LPPLModel.optimize(prices, dates)` of `lib/lppl-model.js` (the function
re-exported as `optimizeLPPL`): sentinel below 100 observations, otherwise
grid search over the log of the WHOLE price series followed by `finalize`
with the full length `n`. -/
noncomputable def optimize (prices : List ℝ) : LPPLResult :=
  if prices.length < 100 then ⟨false, 0, 0, none, none⟩
  else finalize (gridBest (prices.map Real.log)) prices.length

end LPPL

namespace InlineLPPL

/-- Inline handler tc grid: `for (tc = rn + 5; tc <= rn + 200; tc += 15)`,
i.e. the 14 values `rn + 5, rn + 20, ..., rn + 200`. -/
def tcCandidatesI (rn : ℕ) : List ℕ :=
  (List.range 14).map (fun k => rn + 5 + 15 * k)

/-- Inline handler `m` grid. -/
noncomputable def mGridI : List ℝ := [0.2, 0.33, 0.5, 0.67, 0.8]

/-- Inline handler `omega` grid. -/
noncomputable def omegaGridI : List ℝ := [6, 8, 10, 12]

/-- Inline handler `phi` grid: quarter-turn phases. -/
noncomputable def phiGridI : List ℝ := [0, Real.pi / 2, Real.pi, 3 * Real.pi / 2]

/-- One grid-candidate evaluation of the inline `optimize`: identical to the
library one except that only `B >= 0 || |C| > |B|` is tested (no redundant
`m` / `omega` range checks). -/
noncomputable def evalCandidateI (y : List ℝ) (tc m omega phi : ℝ) : Option LPPL.LPPLFit :=
  let n := y.length
  if ∀ i ∈ Finset.range n, 0 < tc - (i : ℝ) then
    match LPPL.solve3x3 (LPPL.xtx n tc m omega phi) (LPPL.xty y tc m omega phi) with
    | none => none
    | some (A, B, C) =>
      if 0 ≤ B ∨ |B| < |C| then none
      else some ⟨tc, A, B, C, m, omega, phi, LPPL.r2Of y tc A B C m omega phi⟩
  else none

/-- Inline grid in loop order (`tc`, then `m`, `omega`, `phi`). -/
noncomputable def candidatesI (rn : ℕ) : List (ℝ × ℝ × ℝ × ℝ) :=
  (tcCandidatesI rn).flatMap fun (tc : ℕ) =>
    mGridI.flatMap fun m =>
      omegaGridI.flatMap fun omega =>
        phiGridI.map fun phi => ((tc : ℝ), m, omega, phi)

/-- The inline handler's grid search over its (truncated) log-price series. -/
noncomputable def gridBestI (y : List ℝ) : Option LPPL.LPPLFit :=
  (candidatesI y.length).foldl (LPPL.gridStep (evalCandidateI y)) none

/-- The inline `LPPLModel.optimize(prices)` of the combined API handler:
sentinel below 100 observations, then `recentPrices = prices.slice(-500)`
("Only use last 500 days for LPPL"), grid search over the log of the
truncated series, and `finalize` with the truncated length `rn`. -/
noncomputable def optimizeI (prices : List ℝ) : LPPL.LPPLResult :=
  if prices.length < 100 then ⟨false, 0, 0, none, none⟩
  else
    let recentPrices := prices.drop (prices.length - 500)
    LPPL.finalize (gridBestI (recentPrices.map Real.log)) recentPrices.length

end InlineLPPL

/-- C6: for every price sequence of length strictly below 100, both `optimize`
implementations immediately return the sentinel result with `isBubble` false,
`confidence` 0 and `r2` 0 (and, the embedding being a total function, no
exception is raised). -/
theorem optimize_short_input_sentinel :
    ∀ ps : List ℝ, ps.length < 100 →
      LPPL.optimize ps = ⟨false, 0, 0, none, none⟩ ∧
      InlineLPPL.optimizeI ps = ⟨false, 0, 0, none, none⟩ := by
  intro ps h
  constructor
  · unfold LPPL.optimize
    rw [if_pos h]
  · unfold InlineLPPL.optimizeI
    rw [if_pos h]

/-- Witness for C6 at the concrete empty price list. -/
theorem optimize_short_input_sentinel_witness :
    ([] : List ℝ).length < 100 ∧
      LPPL.optimize ([] : List ℝ) = ⟨false, 0, 0, none, none⟩ ∧
      InlineLPPL.optimizeI ([] : List ℝ) = ⟨false, 0, 0, none, none⟩ :=
  ⟨by simp, optimize_short_input_sentinel [] (by simp)⟩

/-- C7: `kendallTau` returns 0 for every lookback whenever fewer than 10
defined (non-null) values survive the null filtering, whatever the values
are (and it raises no exception). -/
theorem kendallTau_few_defined_zero :
    ∀ (s : List (Option ℝ)) (lookback : ℕ),
      (s.filterMap id).length < 10 → StatEngine.kendallTau s lookback = 0 := by
  intro s lb h
  have hr : (StatEngine.kendallRecent s lb).length < 10 := by
    unfold StatEngine.kendallRecent
    split
    · exact h
    · refine Nat.lt_of_le_of_lt ?_ h
      rw [List.length_drop]
      exact Nat.sub_le _ _
  unfold StatEngine.kendallTau
  rw [if_pos hr]

/-- Witness for C7 at a concrete series with 9 defined entries. -/
theorem kendallTau_few_defined_zero_witness :
    ((List.replicate 9 (some (1 : ℝ)) ++ [none]).filterMap id).length < 10 ∧
      StatEngine.kendallTau (List.replicate 9 (some (1 : ℝ)) ++ [none]) 100 = 0 :=
  ⟨by simp, kendallTau_few_defined_zero _ 100 (by simp)⟩

/-- C9: both analysis entry points are deterministic functions of the price
sequence and the configuration alone: equal inputs give equal results (the
embedding is a pure function, mirroring that the source reads only its
arguments, uses no randomness or clock, and never writes into `prices`). -/
theorem engine_deterministic :
    ∀ (ps qs : List ℝ) (c d : StatEngine.CSDConfig), ps = qs → c = d →
      StatEngine.analyzeCSD ps c = StatEngine.analyzeCSD qs d ∧
      LPPL.optimize ps = LPPL.optimize qs := by
  intro ps qs c d hp hc
  subst hp
  subst hc
  exact ⟨rfl, rfl⟩

/-- Witness for C9 at a concrete series and the default configuration. -/
theorem engine_deterministic_witness :
    StatEngine.analyzeCSD [1, 2, 3] {} = StatEngine.analyzeCSD [1, 2, 3] {} ∧
      LPPL.optimize [1, 2, 3] = LPPL.optimize [1, 2, 3] :=
  engine_deterministic [1, 2, 3] [1, 2, 3] {} {} rfl rfl

/-- C1 (supporting theorem): the inline `optimize` of the combined API handler
does restrict its fit to the last 500 observations (its result on a longer
series equals its result on the last 500 prices), whereas the library
`optimize` of `lib/lppl-model.js` — the one exported as `optimizeLPPL` — runs
its grid search over the log of the WHOLE series and finalizes with the full
length, with no 500-observation truncation anywhere. -/
theorem lppl_truncation_inline_only :
    ∀ ps : List ℝ, 500 < ps.length →
      InlineLPPL.optimizeI ps = InlineLPPL.optimizeI (ps.drop (ps.length - 500)) ∧
      LPPL.optimize ps = LPPL.finalize (LPPL.gridBest (ps.map Real.log)) ps.length := by
  intro ps h
  have h100 : ¬ ps.length < 100 := by omega
  have hq : (ps.drop (ps.length - 500)).length = 500 := by
    rw [List.length_drop]
    omega
  constructor
  · unfold InlineLPPL.optimizeI
    rw [if_neg h100, if_neg (by rw [hq]; norm_num)]
    rw [hq]
    simp
  · unfold LPPL.optimize
    rw [if_neg h100]

/-- Witness for C1's supporting theorem at a concrete 501-price series. -/
theorem lppl_truncation_inline_only_witness :
    500 < (List.replicate 501 (1 : ℝ)).length ∧
      (InlineLPPL.optimizeI (List.replicate 501 (1 : ℝ)) =
          InlineLPPL.optimizeI ((List.replicate 501 (1 : ℝ)).drop
            ((List.replicate 501 (1 : ℝ)).length - 500)) ∧
        LPPL.optimize (List.replicate 501 (1 : ℝ)) =
          LPPL.finalize (LPPL.gridBest ((List.replicate 501 (1 : ℝ)).map Real.log))
            (List.replicate 501 (1 : ℝ)).length) :=
  ⟨by rw [List.length_replicate]; norm_num,
    lppl_truncation_inline_only _ (by rw [List.length_replicate]; norm_num)⟩

/-- C2 counterexample: a call of `rollingAR1` with window size 0 (and likewise
`rollingVariance`, and `detrend` with bandwidth 0) does NOT fail fast with an
error: it returns normally, and its entries are exactly the insufficient-data
sentinel shapes (`null` under the guard, neutral values elsewhere). -/
theorem rollingAR1_zero_window_counterexample :
    StatEngine.rollingAR1 [0, 0, 0] 0 = [none, some 0, some 0] ∧
      StatEngine.rollingVariance [0, 0, 0] 0 = [some 0, some 0, some 0] ∧
      (StatEngine.detrend [(1 : ℝ), 2, 3] 0).trend.length = 3 := by
  have hr : List.range 3 = [0, 1, 2] := by decide
  refine ⟨?_, ?_, ?_⟩
  · unfold StatEngine.rollingAR1
    simp only [List.length_cons, List.length_nil, hr, List.map_cons, List.map_nil]
    norm_num
    unfold StatEngine.ar1At StatEngine.ar1VarCur StatEngine.ar1VarLag
    norm_num
  · unfold StatEngine.rollingVariance
    simp only [List.length_cons, List.length_nil, hr, List.map_cons, List.map_nil]
    norm_num
    unfold StatEngine.varAt StatEngine.windowFrom
    norm_num
  · unfold StatEngine.detrend
    simp

/-- C2 (amended): the engine performs no precondition validation at all. With
a zero or negative window size, `rollingAR1` still returns its `null`-guard
prefix and the neutral value 0 everywhere else, `rollingVariance` returns 0 at
every index, and `detrend` with any (even non-positive) bandwidth still
returns full-length `trend`/`residuals` arrays; no error is ever raised. -/
theorem nonpositive_window_no_error :
    ∀ (res : List ℝ) (ws : ℤ) (bw : ℝ), ws ≤ 0 →
      StatEngine.rollingAR1 res ws =
        (List.range res.length).map
          (fun (i : ℕ) => if (i : ℤ) < ws + 1 then none else some (0 : ℝ)) ∧
      StatEngine.rollingVariance res ws =
        (List.range res.length).map (fun _ => some (0 : ℝ)) ∧
      (StatEngine.detrend res bw).trend.length = res.length ∧
      (StatEngine.detrend res bw).residuals.length = res.length := by
  intro res ws bw hws
  have htn : ws.toNat = 0 := Int.toNat_of_nonpos hws
  refine ⟨?_, ?_, ?_, ?_⟩
  · unfold StatEngine.rollingAR1
    refine List.map_congr_left ?_
    intro i _
    by_cases hi : (i : ℤ) < ws + 1
    · rw [if_pos hi, if_pos hi]
    · rw [if_neg hi, if_neg hi]
      unfold StatEngine.ar1At StatEngine.ar1VarCur StatEngine.ar1VarLag
      simp [htn]
  · unfold StatEngine.rollingVariance
    refine List.map_congr_left ?_
    intro i _
    have hi : ¬ (i : ℤ) < ws := by
      have : (0 : ℤ) ≤ (i : ℤ) := Int.ofNat_nonneg i
      omega
    rw [if_neg hi]
    unfold StatEngine.varAt StatEngine.windowFrom
    simp [htn]
  · unfold StatEngine.detrend
    simp
  · unfold StatEngine.detrend
    simp

/-- Witness for C2's amended theorem at window size 0 and bandwidth 0. -/
theorem nonpositive_window_no_error_witness :
    (0 : ℤ) ≤ 0 ∧
      (StatEngine.rollingAR1 [1, 2] 0 =
          (List.range ([(1 : ℝ), 2].length)).map
            (fun (i : ℕ) => if (i : ℤ) < 0 + 1 then none else some (0 : ℝ)) ∧
        StatEngine.rollingVariance [1, 2] 0 =
          (List.range ([(1 : ℝ), 2].length)).map (fun _ => some (0 : ℝ)) ∧
        (StatEngine.detrend [(1 : ℝ), 2] 0).trend.length = [(1 : ℝ), 2].length ∧
        (StatEngine.detrend [(1 : ℝ), 2] 0).residuals.length = [(1 : ℝ), 2].length) :=
  ⟨le_refl 0, nonpositive_window_no_error [1, 2] 0 0 (le_refl 0)⟩

/-- C4: with a positive window size, every defined (non-`null`) entry of
`rollingAR1` lies in `[-1, 1]`, and whenever either window's variance is zero
the guarded correlation makes the entry exactly 0 instead of a NaN. -/
theorem rollingAR1_bounded :
    ∀ (res : List ℝ) (ws : ℤ) (i : ℕ) (x : ℝ), 0 < ws →
      (StatEngine.rollingAR1 res ws).getD i none = some x →
      (-1 ≤ x ∧ x ≤ 1) ∧
      ((StatEngine.ar1VarCur res ws i = 0 ∨ StatEngine.ar1VarLag res ws i = 0) → x = 0) := by
  intro res ws i x _ hx
  unfold StatEngine.rollingAR1 at hx
  rw [List.getD_eq_getElem?_getD, List.getElem?_map] at hx
  by_cases hi : i < res.length
  · rw [List.getElem?_range hi] at hx
    simp only [Option.map_some'] at hx
    by_cases hg : (i : ℤ) < ws + 1
    · rw [if_pos hg] at hx
      simp at hx
    · rw [if_neg hg] at hx
      simp only [Option.getD_some, Option.some.injEq] at hx
      subst hx
      constructor
      · unfold StatEngine.ar1At
        constructor
        · exact le_max_left _ _
        · exact max_le (by norm_num) (min_le_left _ _)
      · intro hzero
        unfold StatEngine.ar1At
        have hcond : ¬ (0 < StatEngine.ar1VarCur res ws i ∧ 0 < StatEngine.ar1VarLag res ws i) := by
          rcases hzero with h0 | h0 <;> rw [h0] <;> simp
        rw [if_neg hcond]
        norm_num
  · rw [List.getElem?_eq_none (by rw [List.length_range]; omega)] at hx
    simp at hx

/-- Witness for C4: at the all-zero residual series with window size 1 the
entry at index 3 is defined, both window variances are zero, and the entry
is 0 (inside `[-1, 1]`). -/
theorem rollingAR1_bounded_witness :
    ((0 : ℤ) < 1 ∧ (StatEngine.rollingAR1 [0, 0, 0, 0] 1).getD 3 none = some 0) ∧
      ((-1 ≤ (0 : ℝ) ∧ (0 : ℝ) ≤ 1) ∧
        ((StatEngine.ar1VarCur [0, 0, 0, 0] 1 3 = 0 ∨ StatEngine.ar1VarLag [0, 0, 0, 0] 1 3 = 0) →
          (0 : ℝ) = 0)) := by
  have h2 : (StatEngine.rollingAR1 [0, 0, 0, 0] 1).getD 3 none = some 0 := by
    unfold StatEngine.rollingAR1 StatEngine.ar1At StatEngine.ar1VarCur StatEngine.ar1VarLag
      StatEngine.ar1Cov StatEngine.windowFrom
    norm_num [List.range_succ]
  exact ⟨⟨by norm_num, h2⟩, rollingAR1_bounded [0, 0, 0, 0] 1 3 0 (by norm_num) h2⟩

/-- Modelled from the spec's words, for comparison with the code: the sample
variance of a window, with denominator `length - 1`. -/
noncomputable def specSampleVariance (w : List ℝ) : ℝ :=
  (w.map (fun v => (v - w.sum / (w.length : ℝ)) ^ 2)).sum / ((w.length : ℝ) - 1)

/-- The window the code reads element-by-element is the contiguous slice
`[i - windowSize, i)` of the residual list. -/
lemma windowFrom_eq_slice (res : List ℝ) (ws : ℤ) (i : ℕ)
    (h0 : 0 < ws) (hwi : ws ≤ (i : ℤ)) (hin : i < res.length) :
    StatEngine.windowFrom res ws ((i : ℤ) - ws) =
      (res.drop (i - ws.toNat)).take ws.toNat := by
  have hwn : (ws.toNat : ℤ) = ws := Int.toNat_of_nonneg (le_of_lt h0)
  have hwi2 : ws.toNat ≤ i := by omega
  apply List.ext_getElem
  · simp only [StatEngine.windowFrom, List.length_map, List.length_range,
      List.length_take, List.length_drop]
    omega
  · intro j hj1 hj2
    have hjw : j < ws.toNat := by
      simpa [StatEngine.windowFrom] using hj1
    have hidx : ((i : ℤ) - ws + (j : ℤ)).toNat = i - ws.toNat + j := by omega
    have hbound : i - ws.toNat + j < res.length := by omega
    simp only [StatEngine.windowFrom, List.getElem_map, List.getElem_range]
    rw [hidx, List.getD_eq_getElem res 0 hbound, List.getElem_take, List.getElem_drop]

/-- The variance body computes exactly the spec's sample variance of that
slice. -/
lemma varAt_eq_specSampleVariance (res : List ℝ) (ws : ℤ) (i : ℕ)
    (h0 : 0 < ws) (hwi : ws ≤ (i : ℤ)) (hin : i < res.length) :
    StatEngine.varAt res ws i =
      specSampleVariance ((res.drop (i - ws.toNat)).take ws.toNat) := by
  have hslice := windowFrom_eq_slice res ws i h0 hwi hin
  have hlen : ((res.drop (i - ws.toNat)).take ws.toNat).length = ws.toNat := by
    simp only [List.length_take, List.length_drop]
    omega
  have hcast : ((ws.toNat : ℕ) : ℝ) = (ws : ℝ) := by
    exact_mod_cast congrArg (fun z : ℤ => (z : ℝ)) (Int.toNat_of_nonneg (le_of_lt h0))
  unfold StatEngine.varAt specSampleVariance
  rw [hslice, hlen, hcast]

/-- C5: with a positive window size both rolling series have the same length
as the input; `rollingAR1[i]` is `null` exactly when `i < windowSize + 1` and
`rollingVariance[i]` exactly when `i < windowSize` (the one-index offset);
and every defined `rollingVariance[i]` is the sample variance (denominator
`windowSize - 1`) of the trailing slice `[i - windowSize, i)`. -/
theorem rolling_series_shape :
    ∀ (res : List ℝ) (ws : ℤ) (i : ℕ), 0 < ws → i < res.length →
      (StatEngine.rollingAR1 res ws).length = res.length ∧
      (StatEngine.rollingVariance res ws).length = res.length ∧
      ((StatEngine.rollingAR1 res ws).getD i none = none ↔ (i : ℤ) < ws + 1) ∧
      ((StatEngine.rollingVariance res ws).getD i none = none ↔ (i : ℤ) < ws) ∧
      (¬ (i : ℤ) < ws →
        (StatEngine.rollingVariance res ws).getD i none =
          some (specSampleVariance ((res.drop (i - ws.toNat)).take ws.toNat))) := by
  intro res ws i hws hi
  have har : (StatEngine.rollingAR1 res ws).getD i none =
      (if (i : ℤ) < ws + 1 then none else some (StatEngine.ar1At res ws i)) := by
    unfold StatEngine.rollingAR1
    rw [List.getD_eq_getElem?_getD, List.getElem?_map, List.getElem?_range hi]
    rfl
  have hvr : (StatEngine.rollingVariance res ws).getD i none =
      (if (i : ℤ) < ws then none else some (StatEngine.varAt res ws i)) := by
    unfold StatEngine.rollingVariance
    rw [List.getD_eq_getElem?_getD, List.getElem?_map, List.getElem?_range hi]
    rfl
  refine ⟨?_, ?_, ?_, ?_, ?_⟩
  · unfold StatEngine.rollingAR1
    simp
  · unfold StatEngine.rollingVariance
    simp
  · rw [har]
    by_cases hg : (i : ℤ) < ws + 1 <;> simp [hg]
  · rw [hvr]
    by_cases hg : (i : ℤ) < ws <;> simp [hg]
  · intro hg
    rw [hvr, if_neg hg]
    rw [varAt_eq_specSampleVariance res ws i hws (by omega) hi]

/-- Witness for C5 at a concrete three-element residual list with window
size 1, checked at index 1. -/
theorem rolling_series_shape_witness :
    ((0 : ℤ) < 1 ∧ 1 < [(4 : ℝ), 5, 6].length) ∧
      ((StatEngine.rollingAR1 [(4 : ℝ), 5, 6] 1).length = [(4 : ℝ), 5, 6].length ∧
        (StatEngine.rollingVariance [(4 : ℝ), 5, 6] 1).length = [(4 : ℝ), 5, 6].length ∧
        ((StatEngine.rollingAR1 [(4 : ℝ), 5, 6] 1).getD 1 none = none ↔ (1 : ℤ) < 1 + 1) ∧
        ((StatEngine.rollingVariance [(4 : ℝ), 5, 6] 1).getD 1 none = none ↔ (1 : ℤ) < 1) ∧
        (¬ (1 : ℤ) < 1 →
          (StatEngine.rollingVariance [(4 : ℝ), 5, 6] 1).getD 1 none =
            some (specSampleVariance (([(4 : ℝ), 5, 6].drop (1 - (1 : ℤ).toNat)).take
              (1 : ℤ).toNat)))) :=
  ⟨⟨by norm_num, by norm_num⟩,
    rolling_series_shape [(4 : ℝ), 5, 6] 1 1 (by norm_num) (by norm_num)⟩

/-- With a positive bandwidth every Gaussian kernel weight is strictly
positive. -/
lemma gaussianKernel_pos (x bandwidth : ℝ) (hb : 0 < bandwidth) :
    0 < StatEngine.gaussianKernel x bandwidth := by
  unfold StatEngine.gaussianKernel
  apply div_pos (Real.exp_pos _)
  apply mul_pos hb
  apply Real.sqrt_pos.mpr
  positivity

/-- C10: for a positive bandwidth, each `trend[i]` of `detrend` is a convex
combination of the data (the kernel weights are strictly positive), hence lies
between any lower and upper bound of the input values, and
`residual[i] = data[i] - trend[i]` at every index. -/
theorem detrend_trend_bounds :
    ∀ (data : List ℝ) (bw : ℝ) (i : ℕ) (lo hi : ℝ), 0 < bw → i < data.length →
      (∀ x ∈ data, lo ≤ x ∧ x ≤ hi) →
      (lo ≤ (StatEngine.detrend data bw).trend.getD i 0 ∧
        (StatEngine.detrend data bw).trend.getD i 0 ≤ hi) ∧
      (StatEngine.detrend data bw).residuals.getD i 0 =
        data.getD i 0 - (StatEngine.detrend data bw).trend.getD i 0 := by
  intro data bw i lo hi hbw hi_len hbounds
  have htrend : (StatEngine.detrend data bw).trend.getD i 0 = StatEngine.trendAt data bw i := by
    unfold StatEngine.detrend
    rw [List.getD_eq_getElem?_getD, List.getElem?_map, List.getElem?_range hi_len]
    rfl
  have hres : (StatEngine.detrend data bw).residuals.getD i 0 =
      data.getD i 0 - StatEngine.trendAt data bw i := by
    unfold StatEngine.detrend
    rw [List.getD_eq_getElem?_getD, List.getElem?_map, List.getElem?_range hi_len]
    rfl
  have hwpos : ∀ j : ℕ, 0 < StatEngine.gaussianKernel ((i : ℝ) - (j : ℝ)) bw :=
    fun j => gaussianKernel_pos _ _ hbw
  have hSpos : 0 < ∑ j ∈ Finset.range data.length,
      StatEngine.gaussianKernel ((i : ℝ) - (j : ℝ)) bw := by
    apply Finset.sum_pos (fun j _ => hwpos j)
    exact ⟨i, Finset.mem_range.mpr hi_len⟩
  have hmem : ∀ j ∈ Finset.range data.length, lo ≤ data.getD j 0 ∧ data.getD j 0 ≤ hi := by
    intro j hj
    have hjl : j < data.length := Finset.mem_range.mp hj
    rw [List.getD_eq_getElem data 0 hjl]
    exact hbounds _ (List.getElem_mem hjl)
  constructor
  · rw [htrend]
    unfold StatEngine.trendAt
    constructor
    · rw [le_div_iff₀ hSpos, Finset.mul_sum]
      apply Finset.sum_le_sum
      intro j hj
      have := (hmem j hj).1
      nlinarith [hwpos j]
    · rw [div_le_iff₀ hSpos, Finset.mul_sum]
      apply Finset.sum_le_sum
      intro j hj
      have := (hmem j hj).2
      nlinarith [hwpos j]
  · rw [hres, htrend]

/-- Witness for C10 at the concrete series `[1, 2]`, bandwidth 1, index 0. -/
theorem detrend_trend_bounds_witness :
    ((0 : ℝ) < 1 ∧ 0 < [(1 : ℝ), 2].length ∧ (∀ x ∈ [(1 : ℝ), 2], 1 ≤ x ∧ x ≤ 2)) ∧
      ((1 ≤ (StatEngine.detrend [(1 : ℝ), 2] 1).trend.getD 0 0 ∧
          (StatEngine.detrend [(1 : ℝ), 2] 1).trend.getD 0 0 ≤ 2) ∧
        (StatEngine.detrend [(1 : ℝ), 2] 1).residuals.getD 0 0 =
          [(1 : ℝ), 2].getD 0 0 - (StatEngine.detrend [(1 : ℝ), 2] 1).trend.getD 0 0) := by
  have hb : ∀ x ∈ [(1 : ℝ), 2], 1 ≤ x ∧ x ≤ 2 := by
    intro x hx
    simp only [List.mem_cons, List.not_mem_nil, or_false] at hx
    rcases hx with h | h <;> subst h <;> norm_num
  exact ⟨⟨by norm_num, by norm_num, hb⟩,
    detrend_trend_bounds [(1 : ℝ), 2] 1 0 1 2 (by norm_num) (by norm_num) hb⟩

/-- Fold invariant of the grid search: a kept best fit always has
`r2 > 0.75` (candidates are only accepted past that threshold). -/
lemma gridStep_cases (eval : ℝ → ℝ → ℝ → ℝ → Option LPPL.LPPLFit)
    (b : Option LPPL.LPPLFit) (c : ℝ × ℝ × ℝ × ℝ) :
    LPPL.gridStep eval b c = b ∨
      ∃ g, LPPL.gridStep eval b c = some g ∧ 0.75 < g.r2 := by
  unfold LPPL.gridStep
  split
  · exact Or.inl rfl
  · rename_i g heval
    split
    · rename_i hcond
      exact Or.inr ⟨g, rfl, hcond.2⟩
    · exact Or.inl rfl

lemma gridBest_r2_gt (eval : ℝ → ℝ → ℝ → ℝ → Option LPPL.LPPLFit)
    (cs : List (ℝ × ℝ × ℝ × ℝ)) (f : LPPL.LPPLFit)
    (h : cs.foldl (LPPL.gridStep eval) none = some f) : 0.75 < f.r2 := by
  suffices hgen : ∀ (cs : List (ℝ × ℝ × ℝ × ℝ)) (b : Option LPPL.LPPLFit),
      (∀ g, b = some g → 0.75 < g.r2) →
      ∀ f, cs.foldl (LPPL.gridStep eval) b = some f → 0.75 < f.r2 by
    exact hgen cs none (by intro g hg; cases hg) f h
  intro cs
  induction cs with
  | nil =>
    intro b hb f hf
    simp only [List.foldl_nil] at hf
    exact hb f hf
  | cons c cs ih =>
    intro b hb f hf
    rw [List.foldl_cons] at hf
    refine ih (LPPL.gridStep eval b c) ?_ f hf
    intro g hg
    rcases gridStep_cases eval b c with hcase | ⟨g2, hg2, hr2⟩
    · exact hb g (hcase ▸ hg)
    · rw [hg2] at hg
      cases hg
      exact hr2

/-- C3: once the grid search has kept a best fit `f` (which by
`gridBest_r2_gt` always has `r2 > 0.75`), `optimize` — which is exactly
`finalize` of the grid search result over the full series — returns
`confidence = clamp((r2 - 0.75)/0.2, 0, 1)`,
`tcDays = round(tc - n + 1)`, and `isBubble` true exactly when
`confidence > 0.3` and `5 < tcDays < 200`. -/
theorem lppl_confidence_formula :
    ∀ (f : LPPL.LPPLFit) (n : ℕ) (ps : List ℝ), 0.75 < f.r2 → 100 ≤ ps.length →
      (LPPL.finalize (some f) n).confidence = min 1 (max 0 ((f.r2 - 0.75) / 0.2)) ∧
      (LPPL.finalize (some f) n).tcDays = some (LPPL.jsRound (f.tc - (n : ℝ) + 1)) ∧
      ((LPPL.finalize (some f) n).isBubble = true ↔
        (0.3 < min 1 (max 0 ((f.r2 - 0.75) / 0.2)) ∧
          5 < LPPL.jsRound (f.tc - (n : ℝ) + 1) ∧ LPPL.jsRound (f.tc - (n : ℝ) + 1) < 200)) ∧
      LPPL.optimize ps = LPPL.finalize (LPPL.gridBest (ps.map Real.log)) ps.length := by
  intro f n ps hr hn
  have hnot : ¬ f.r2 < 0.75 := by linarith
  have hfin : LPPL.finalize (some f) n =
      ⟨if 0.3 < min 1 (max 0 ((f.r2 - 0.75) / 0.2)) ∧
          5 < LPPL.jsRound (f.tc - (n : ℝ) + 1) ∧ LPPL.jsRound (f.tc - (n : ℝ) + 1) < 200
        then true else false,
        min 1 (max 0 ((f.r2 - 0.75) / 0.2)), f.r2,
        some (LPPL.jsRound (f.tc - (n : ℝ) + 1)), some f⟩ := by
    simp only [LPPL.finalize]
    rw [if_neg hnot]
  refine ⟨by rw [hfin], by rw [hfin], ?_, ?_⟩
  · rw [hfin]
    by_cases hb : 0.3 < min 1 (max 0 ((f.r2 - 0.75) / 0.2)) ∧
        5 < LPPL.jsRound (f.tc - (n : ℝ) + 1) ∧ LPPL.jsRound (f.tc - (n : ℝ) + 1) < 200
    · simp [hb]
    · simp [hb]
  · unfold LPPL.optimize
    rw [if_neg (by omega)]

/-- Witness for C3 at a concrete fit record (`tc = 520`, `r2 = 0.85`) with
`n = 500` and a concrete 100-price series. -/
theorem lppl_confidence_formula_witness :
    ((0.75 : ℝ) < (LPPL.LPPLFit.mk 520 0 (-1) 0 0.5 8 0 0.85).r2 ∧
        100 ≤ (List.replicate 100 (1 : ℝ)).length) ∧
      ((LPPL.finalize (some (LPPL.LPPLFit.mk 520 0 (-1) 0 0.5 8 0 0.85)) 500).confidence =
          min 1 (max 0 (((LPPL.LPPLFit.mk 520 0 (-1) 0 0.5 8 0 0.85).r2 - 0.75) / 0.2)) ∧
        (LPPL.finalize (some (LPPL.LPPLFit.mk 520 0 (-1) 0 0.5 8 0 0.85)) 500).tcDays =
          some (LPPL.jsRound ((LPPL.LPPLFit.mk 520 0 (-1) 0 0.5 8 0 0.85).tc - (500 : ℕ) + 1)) ∧
        ((LPPL.finalize (some (LPPL.LPPLFit.mk 520 0 (-1) 0 0.5 8 0 0.85)) 500).isBubble = true ↔
          (0.3 < min 1 (max 0 (((LPPL.LPPLFit.mk 520 0 (-1) 0 0.5 8 0 0.85).r2 - 0.75) / 0.2)) ∧
            5 < LPPL.jsRound ((LPPL.LPPLFit.mk 520 0 (-1) 0 0.5 8 0 0.85).tc - (500 : ℕ) + 1) ∧
            LPPL.jsRound ((LPPL.LPPLFit.mk 520 0 (-1) 0 0.5 8 0 0.85).tc - (500 : ℕ) + 1) < 200)) ∧
        LPPL.optimize (List.replicate 100 (1 : ℝ)) =
          LPPL.finalize (LPPL.gridBest ((List.replicate 100 (1 : ℝ)).map Real.log))
            (List.replicate 100 (1 : ℝ)).length) :=
  ⟨⟨by norm_num, by rw [List.length_replicate]⟩,
    lppl_confidence_formula (LPPL.LPPLFit.mk 520 0 (-1) 0 0.5 8 0 0.85) 500
      (List.replicate 100 (1 : ℝ)) (by norm_num) (by rw [List.length_replicate])⟩

/-- Counting all index pairs `i < j < k`: the inner `Ico` cards sum to
`k*(k-1)/2`, as a real number. -/
lemma pairs_count_real (k : ℕ) (hk : 1 ≤ k) :
    ((∑ i ∈ Finset.range k, (k - (i + 1)) : ℕ) : ℝ) = (k : ℝ) * ((k : ℝ) - 1) / 2 := by
  have h1 : ∑ i ∈ Finset.range k, (k - (i + 1)) = ∑ i ∈ Finset.range k, i := by
    calc ∑ i ∈ Finset.range k, (k - (i + 1))
        = ∑ i ∈ Finset.range k, (k - 1 - i) := by
          apply Finset.sum_congr rfl
          intro i hi
          omega
      _ = ∑ i ∈ Finset.range k, i := Finset.sum_range_reflect (fun i => i) k
  have h2 : (k * (k - 1) / 2) * 2 = k * (k - 1) := by
    apply Nat.div_mul_cancel
    have he : Even ((k - 1) * (k - 1 + 1)) := Nat.even_mul_succ_self (k - 1)
    have hk1 : k - 1 + 1 = k := by omega
    rw [hk1, mul_comm] at he
    exact he.two_dvd
  rw [h1, Finset.sum_range_id]
  have h3 := congrArg (fun n : ℕ => (n : ℝ)) h2
  push_cast [Nat.cast_sub hk] at h3
  linarith

/-- C8: when the trailing window of defined AR(1) values has length at least
10, `kendallTau` returns exactly 1 if that window is strictly increasing and
exactly -1 if it is strictly decreasing. -/
theorem kendallTau_strict_monotone :
    ∀ (s : List (Option ℝ)) (lb : ℕ), 10 ≤ (StatEngine.kendallRecent s lb).length →
      ((StatEngine.kendallRecent s lb).Pairwise (· < ·) → StatEngine.kendallTau s lb = 1) ∧
      ((StatEngine.kendallRecent s lb).Pairwise (· > ·) → StatEngine.kendallTau s lb = -1) := by
  intro s lb hlen
  set recent := StatEngine.kendallRecent s lb with hrec
  set k := recent.length with hkdef
  have hnot : ¬ k < 10 := by omega
  have hk10 : (10 : ℝ) ≤ (k : ℝ) := by exact_mod_cast hlen
  have hpairs_pos : (0 : ℝ) < (k : ℝ) * ((k : ℝ) - 1) / 2 := by nlinarith
  have hcount : ∀ i ∈ Finset.range k, ∑ j ∈ Finset.Ico (i + 1) k, (1 : ℝ) = ((k - (i + 1) : ℕ) : ℝ) := by
    intro i _
    rw [Finset.sum_const, Nat.card_Ico, nsmul_eq_mul, mul_one]
  have hsum_ones :
      (∑ i ∈ Finset.range k, ∑ j ∈ Finset.Ico (i + 1) k, (1 : ℝ)) = (k : ℝ) * ((k : ℝ) - 1) / 2 := by
    rw [Finset.sum_congr rfl hcount]
    rw [← Nat.cast_sum]
    exact pairs_count_real k (by omega)
  constructor
  · intro hmono
    have hprod : ∀ i j : ℕ, i < j → j < k →
        0 < ((j : ℝ) - (i : ℝ)) * (recent.getD j 0 - recent.getD i 0) := by
      intro i j hij hjk
      have hik : i < k := lt_trans hij hjk
      apply mul_pos
      · have : (i : ℝ) < (j : ℝ) := by exact_mod_cast hij
        linarith
      · rw [List.getD_eq_getElem recent 0 hjk, List.getD_eq_getElem recent 0 hik]
        have := (List.pairwise_iff_getElem.mp hmono) i j hik hjk hij
        linarith
    unfold StatEngine.kendallTau
    rw [if_neg hnot, if_pos hpairs_pos]
    have hconc : (∑ i ∈ Finset.range k, ∑ j ∈ Finset.Ico (i + 1) k,
        if 0 < ((j : ℝ) - (i : ℝ)) * (recent.getD j 0 - recent.getD i 0) then (1 : ℝ) else 0)
          = (k : ℝ) * ((k : ℝ) - 1) / 2 := by
      rw [← hsum_ones]
      apply Finset.sum_congr rfl
      intro i hi
      apply Finset.sum_congr rfl
      intro j hj
      rw [if_pos (hprod i j (Finset.mem_Ico.mp hj).1 (Finset.mem_Ico.mp hj).2)]
    have hdisc : (∑ i ∈ Finset.range k, ∑ j ∈ Finset.Ico (i + 1) k,
        if ((j : ℝ) - (i : ℝ)) * (recent.getD j 0 - recent.getD i 0) < 0 then (1 : ℝ) else 0)
          = 0 := by
      rw [Finset.sum_eq_zero]
      intro i hi
      rw [Finset.sum_eq_zero]
      intro j hj
      rw [if_neg (asymm (hprod i j (Finset.mem_Ico.mp hj).1 (Finset.mem_Ico.mp hj).2))]
    rw [hconc, hdisc, sub_zero, div_self (ne_of_gt hpairs_pos)]
  · intro hmono
    have hprod : ∀ i j : ℕ, i < j → j < k →
        ((j : ℝ) - (i : ℝ)) * (recent.getD j 0 - recent.getD i 0) < 0 := by
      intro i j hij hjk
      have hik : i < k := lt_trans hij hjk
      apply mul_neg_of_pos_of_neg
      · have : (i : ℝ) < (j : ℝ) := by exact_mod_cast hij
        linarith
      · rw [List.getD_eq_getElem recent 0 hjk, List.getD_eq_getElem recent 0 hik]
        have := (List.pairwise_iff_getElem.mp hmono) i j hik hjk hij
        have hgt : recent[j] < recent[i] := this
        linarith
    unfold StatEngine.kendallTau
    rw [if_neg hnot, if_pos hpairs_pos]
    have hconc : (∑ i ∈ Finset.range k, ∑ j ∈ Finset.Ico (i + 1) k,
        if 0 < ((j : ℝ) - (i : ℝ)) * (recent.getD j 0 - recent.getD i 0) then (1 : ℝ) else 0)
          = 0 := by
      rw [Finset.sum_eq_zero]
      intro i hi
      rw [Finset.sum_eq_zero]
      intro j hj
      rw [if_neg (asymm (hprod i j (Finset.mem_Ico.mp hj).1 (Finset.mem_Ico.mp hj).2))]
    have hdisc : (∑ i ∈ Finset.range k, ∑ j ∈ Finset.Ico (i + 1) k,
        if ((j : ℝ) - (i : ℝ)) * (recent.getD j 0 - recent.getD i 0) < 0 then (1 : ℝ) else 0)
          = (k : ℝ) * ((k : ℝ) - 1) / 2 := by
      rw [← hsum_ones]
      apply Finset.sum_congr rfl
      intro i hi
      apply Finset.sum_congr rfl
      intro j hj
      rw [if_pos (hprod i j (Finset.mem_Ico.mp hj).1 (Finset.mem_Ico.mp hj).2)]
    rw [hconc, hdisc, zero_sub, neg_div, div_self (ne_of_gt hpairs_pos)]

/-- Witness for C8 at concrete strictly increasing and strictly decreasing
series of 10 defined AR(1) values. -/
theorem kendallTau_strict_monotone_witness :
    StatEngine.kendallTau
        [some 0, some 1, some 2, some 3, some 4, some 5, some 6, some 7, some 8, some 9] 100 = 1 ∧
      StatEngine.kendallTau
        [some 9, some 8, some 7, some 6, some 5, some 4, some 3, some 2, some 1, some 0] 100 = -1 := by
  have h1 : StatEngine.kendallRecent
      [some 0, some 1, some 2, some 3, some 4, some 5, some 6, some 7, some 8, some 9] 100 =
      [(0 : ℝ), 1, 2, 3, 4, 5, 6, 7, 8, 9] := by
    unfold StatEngine.kendallRecent
    norm_num [List.filterMap_cons]
  have h2 : StatEngine.kendallRecent
      [some 9, some 8, some 7, some 6, some 5, some 4, some 3, some 2, some 1, some 0] 100 =
      [(9 : ℝ), 8, 7, 6, 5, 4, 3, 2, 1, 0] := by
    unfold StatEngine.kendallRecent
    norm_num [List.filterMap_cons]
  have hl1 : 10 ≤ (StatEngine.kendallRecent
      [some 0, some 1, some 2, some 3, some 4, some 5, some 6, some 7, some 8, some 9] 100).length := by
    rw [h1]
    norm_num
  have hl2 : 10 ≤ (StatEngine.kendallRecent
      [some 9, some 8, some 7, some 6, some 5, some 4, some 3, some 2, some 1, some 0] 100).length := by
    rw [h2]
    norm_num
  have hm1 : (StatEngine.kendallRecent
      [some 0, some 1, some 2, some 3, some 4, some 5, some 6, some 7, some 8, some 9] 100).Pairwise
        (· < ·) := by
    rw [h1]
    norm_num [List.pairwise_cons]
  have hm2 : (StatEngine.kendallRecent
      [some 9, some 8, some 7, some 6, some 5, some 4, some 3, some 2, some 1, some 0] 100).Pairwise
        (· > ·) := by
    rw [h2]
    norm_num [List.pairwise_cons]
  exact ⟨(kendallTau_strict_monotone _ 100 hl1).1 hm1,
    (kendallTau_strict_monotone _ 100 hl2).2 hm2⟩
